import Mathlib

/-!
Verification development for the trustbloc DID-method REST operations
(`pkg/restapi/didmethod/operation/operations.go`).

The registration handler, key decoder, secret-bundle construction and mode
router are embedded shallowly as pure Lean functions.  External library
calls (base64/base58 codecs, JWK construction, verification-method
construction, the backend VDR `Create` call, JSON body decoding) are
parameters of an `Env` record: the code under verification uses them but
does not implement them, so theorems quantify over every behaviour of
these collaborators.  `elliptic.Unmarshal` for the P-256 curve is embedded
concretely, following the Go standard library, because claims depend on
its success/failure behaviour.
-/

namespace DIDMethod

/-- Modelled from the spec: key-type string for Ed25519 keys (the Go
constant `Ed25519KeyType` lives in the package's models file, which is not
part of the sources here; the spec names the type `Ed25519`). -/
def Ed25519KeyType : String := "Ed25519"

/-- Modelled from the spec: key-type string for P-256 keys (the Go
constant `P256KeyType` lives in the package's models file, which is not
part of the sources here; the spec names the type `P-256`). -/
def P256KeyType : String := "P-256"

/-- Modelled from the spec: terminal state string for a successful
registration (`RegistrationStateFinished`; the spec's response shape gives
state `finished`). -/
def RegistrationStateFinished : String := "finished"

/-- Modelled from the spec: terminal state string for a failed
registration (`RegistrationStateFailure`; the spec's response shape gives
state `failed`). -/
def RegistrationStateFailure : String := "failed"

/-- The five purpose-tag constants of the external sidetree `doc` package
(`doc.KeyPurposeAuthentication` …).  Their concrete values are external to
this repository; the spec's tag names are used as distinct stand-ins. -/
def KeyPurposeAuthentication : String := "Authentication"

/-- External purpose-tag constant `doc.KeyPurposeAssertionMethod`. -/
def KeyPurposeAssertionMethod : String := "AssertionMethod"

/-- External purpose-tag constant `doc.KeyPurposeKeyAgreement`. -/
def KeyPurposeKeyAgreement : String := "KeyAgreement"

/-- External purpose-tag constant `doc.KeyPurposeCapabilityDelegation`. -/
def KeyPurposeCapabilityDelegation : String := "CapabilityDelegation"

/-- External purpose-tag constant `doc.KeyPurposeCapabilityInvocation`. -/
def KeyPurposeCapabilityInvocation : String := "CapabilityInvocation"

/-- External option-name constant `trustbloc.RecoveryPublicKeyOpt`. -/
def RecoveryPublicKeyOpt : String := "recoveryPublicKey"

/-- External option-name constant `trustbloc.UpdatePublicKeyOpt`. -/
def UpdatePublicKeyOpt : String := "updatePublicKey"

/-- Modelled from the spec: one submitted public-key entry of the
registration request (`id`, verification-method `type`, `keyType`, base64
`value`, `purposes`, `recovery`/`update` flags). -/
structure PublicKey where
  id : String
  type : String
  keyType : String
  value : String
  purposes : List String
  recovery : Bool
  update : Bool
  deriving Repr, DecidableEq

/-- Modelled from the spec: one submitted service endpoint entry. -/
structure ServiceEntry where
  id : String
  type : String
  priority : Nat
  recipientKeys : List String
  routingKeys : List String
  endpoint : String
  deriving Repr, DecidableEq

/-- Modelled from the spec: the document draft inside the registration
request (`publicKeys` and `services` sequences). -/
structure DIDDocumentReq where
  publicKey : List PublicKey
  service : List ServiceEntry
  deriving Repr, DecidableEq

/-- Modelled from the spec: the registration request (`jobID` echoed back
unchanged, plus the document draft). -/
structure RegisterDIDRequest where
  jobID : String
  didDocument : DIDDocumentReq
  deriving Repr, DecidableEq

/-- Modelled from the spec: one secret-bundle entry
(`id`, `publicKeyBase58`). -/
structure Key where
  id : String
  publicKeyBase58 : String
  deriving Repr, DecidableEq

/-- Modelled from the spec: the secret bundle of a finished
registration. -/
structure Secret where
  keys : List Key
  deriving Repr, DecidableEq

/-- Modelled from the spec: the terminal DID state in the response
(identifier, failure reason, state string, secret bundle).  A Go
zero-value field is the empty string / empty list. -/
structure DIDState where
  identifier : String
  reason : String
  state : String
  secret : Secret
  deriving Repr, DecidableEq

/-- Modelled from the spec: the registration response
(`jobID`, `didState`). -/
structure RegisterResponse where
  jobID : String
  didState : DIDState
  deriving Repr, DecidableEq

/-- A decoded public-key value as produced by `getKey`: either an
`ed25519.PublicKey` (a byte string) or an `ecdsa.PublicKey` on P-256 whose
coordinate pointers may be nil (`none`), exactly as in the Go source. -/
inductive GoKey where
  | ed25519 (bytes : List Nat)
  | ecdsaP256 (x y : Option Nat)
  deriving Repr, DecidableEq

/-- A JWK as returned by the external `jwksupport.JWKFromKey`; its
internal structure is irrelevant to the handler, which passes it through,
so it simply wraps the key it was built from. -/
structure JWK where
  key : GoKey
  deriving Repr, DecidableEq

/-- A verification method as returned by the external
`did.NewVerificationMethodFromJWK(id, type, controller, jwk)`. -/
structure VerificationMethod where
  id : String
  type : String
  controller : String
  jwk : JWK
  deriving Repr, DecidableEq

/-- The five verification relationships of the aries `did` package
(`did.Authentication` …). -/
inductive Relationship where
  | authentication
  | assertionMethod
  | keyAgreement
  | capabilityDelegation
  | capabilityInvocation
  deriving Repr, DecidableEq

/-- A referenced verification as produced by
`did.NewReferencedVerification(vm, relationship)`: a reference to `vm`
under one relationship (not an embedded copy of the method record). -/
structure Verification where
  method : VerificationMethod
  relationship : Relationship
  deriving Repr, DecidableEq

/-- The aries `did.Service` record built verbatim from a request service
entry. -/
structure DIDService where
  id : String
  type : String
  priority : Nat
  recipientKeys : List String
  routingKeys : List String
  serviceEndpoint : String
  deriving Repr, DecidableEq

/-- The in-progress `did.Doc`: five verification-relationship buckets and
the services sequence (the handler touches no other field). -/
structure DidDoc where
  authentication : List Verification
  assertionMethod : List Verification
  keyAgreement : List Verification
  capabilityDelegation : List Verification
  capabilityInvocation : List Verification
  service : List DIDService
  deriving Repr, DecidableEq

/-- The empty `did.Doc{}` the handler starts from. -/
def emptyDoc : DidDoc := ⟨[], [], [], [], [], []⟩

/-- One `vdr.WithOption(name, value)` DID-method option. -/
structure VDROption where
  name : String
  value : GoKey
  deriving Repr, DecidableEq

/-- The resolved DID document inside the backend's `DocResolution` (the
handler reads only its `ID`). -/
structure ResolvedDocument where
  id : String
  deriving Repr, DecidableEq

/-- The backend's `DocResolution` return value. -/
structure DocResolution where
  didDocument : ResolvedDocument
  deriving Repr, DecidableEq

/-- External collaborators of the handler, quantified over in every
theorem: base64 decoding, base58 encoding, JWK construction,
verification-method construction, JSON body decoding, and the backend
VDR `Create` call. -/
structure Env where
  b64decode : String → Except String (List Nat)
  b58encode : List Nat → String
  jwkFromKey : GoKey → Except String JWK
  newVM : String → String → String → JWK → Except String VerificationMethod
  decodeBody : String → Except String RegisterDIDRequest
  create : DidDoc → List VDROption → Except String DocResolution

/-- The P-256 field prime, `elliptic.P256().Params().P`. -/
def p256P : Nat :=
  0xffffffff00000001000000000000000000000000ffffffffffffffffffffffff

/-- The P-256 curve coefficient b, `elliptic.P256().Params().B`. -/
def p256B : Nat :=
  0x5ac635d8aa3a93e7b3ebbd55769886bc651d06b0cc53b0f63bce3c3e27d2604b

/-- Big-endian bytes to natural number, `new(big.Int).SetBytes`. -/
def bytesToNat (bs : List Nat) : Nat :=
  bs.foldl (fun a b => a * 256 + b) 0

/-- `curve.IsOnCurve(x, y)` for P-256: y² ≡ x³ - 3x + b (mod p). -/
def isOnCurveP256 (x y : Nat) : Bool :=
  (y * y) % p256P == (x * x * x + (p256P - 3) * x + p256B) % p256P

/-- `elliptic.Unmarshal(elliptic.P256(), data)`: `none` models the
`(nil, nil)` return for every invalid uncompressed-point encoding (wrong
length, wrong prefix byte, out-of-range coordinate, or point not on the
curve); `some (x, y)` models a successfully parsed point. -/
def ellipticUnmarshalP256 (data : List Nat) : Option (Nat × Nat) :=
  if data.length ≠ 65 then none
  else if data.headD 0 ≠ 4 then none
  else
    let x := bytesToNat ((data.drop 1).take 32)
    let y := bytesToNat (data.drop 33)
    if p256P ≤ x then none
    else if p256P ≤ y then none
    else if isOnCurveP256 x y then some (x, y) else none

/-- `getKey(keyType, value)` from operations.go: Ed25519 bytes are taken
as-is; for P-256 the `elliptic.Unmarshal` result is wrapped into an ECDSA
key WITHOUT checking for the nil coordinates an invalid encoding
produces; any other type is `invalid key type: <type>`. -/
def getKey (keyType : String) (value : List Nat) : Except String GoKey :=
  if keyType = Ed25519KeyType then .ok (.ed25519 value)
  else if keyType = P256KeyType then
    match ellipticUnmarshalP256 value with
    | some (x, y) => .ok (.ecdsaP256 (some x) (some y))
    | none => .ok (.ecdsaP256 none none)
  else .error ("invalid key type: " ++ keyType)

/-- A failure `DIDState` with the given reason; identifier and secret
keep their Go zero values. -/
def failState (reason : String) : DIDState :=
  ⟨"", reason, RegistrationStateFailure, ⟨[]⟩⟩

/-- The bucket of a `did.Doc` for one relationship. -/
def bucketOf (d : DidDoc) : Relationship → List Verification
  | .authentication => d.authentication
  | .assertionMethod => d.assertionMethod
  | .keyAgreement => d.keyAgreement
  | .capabilityDelegation => d.capabilityDelegation
  | .capabilityInvocation => d.capabilityInvocation

/-- Append one referenced verification to the bucket of one
relationship. -/
def appendBucket (d : DidDoc) (r : Relationship) (x : Verification) : DidDoc :=
  match r with
  | .authentication => { d with authentication := d.authentication ++ [x] }
  | .assertionMethod => { d with assertionMethod := d.assertionMethod ++ [x] }
  | .keyAgreement => { d with keyAgreement := d.keyAgreement ++ [x] }
  | .capabilityDelegation =>
      { d with capabilityDelegation := d.capabilityDelegation ++ [x] }
  | .capabilityInvocation =>
      { d with capabilityInvocation := d.capabilityInvocation ++ [x] }

/-- The relationship a recognized purpose tag routes to (`none` for an
unrecognized tag). -/
def tagToRel (p : String) : Option Relationship :=
  if p = KeyPurposeAuthentication then some .authentication
  else if p = KeyPurposeAssertionMethod then some .assertionMethod
  else if p = KeyPurposeKeyAgreement then some .keyAgreement
  else if p = KeyPurposeCapabilityDelegation then some .capabilityDelegation
  else if p = KeyPurposeCapabilityInvocation then some .capabilityInvocation
  else none

/-- One iteration of the purpose switch in `registerDIDHandler`: append a
reference to `vm` into the matching bucket, or fail the whole request on
an unrecognized tag. -/
def addPurpose (vm : VerificationMethod) (d : DidDoc) (p : String) :
    Except String DidDoc :=
  match tagToRel p with
  | some r => .ok (appendBucket d r ⟨vm, r⟩)
  | none => .error ("public key purpose " ++ p ++ " not supported")

/-- The `for _, p := range v.Purposes` loop: fail-fast left fold of
`addPurpose`. -/
def addPurposes (vm : VerificationMethod) (d : DidDoc) :
    List String → Except String DidDoc
  | [] => .ok d
  | p :: ps =>
    match addPurpose vm d p with
    | .error e => .error e
    | .ok d' => addPurposes vm d' ps

/-- Insert into the Go map `keysID`: overwrite the binding in place when
the key is present, append otherwise (one linearization of Go's unordered
map; key/value content is exact, entry order is a model choice). -/
def insertKV (m : List (String × List Nat)) (k : String) (v : List Nat) :
    List (String × List Nat) :=
  if m.any (fun p => p.1 = k) then
    m.map (fun p => if p.1 = k then (k, v) else p)
  else m ++ [(k, v)]

/-- The per-request accumulator of `registerDIDHandler`: the document
under construction, the DID-method options, and the tracked ordinary-key
map `keysID`. -/
structure Acc where
  didDoc : DidDoc
  opts : List VDROption
  keysID : List (String × List Nat)
  deriving Repr, DecidableEq

/-- The accumulator state at the top of the key loop: `did.Doc{}`, no
options, empty `keysID` map. -/
def initAcc : Acc := ⟨emptyDoc, [], []⟩

/-- The body of the `for _, v := range data.DIDDocument.PublicKey` loop:
base64-decode the value, decode the key, divert recovery/update keys to
DID-method options, otherwise build the JWK and verification method,
route every declared purpose, and track the key bytes in `keysID`.
Errors carry the failure `DIDState` of the corresponding early return. -/
def processKey (env : Env) (acc : Acc) (v : PublicKey) : Except DIDState Acc :=
  match env.b64decode v.value with
  | .error e =>
      .error (failState ("failed to decode public key value : " ++ e))
  | .ok keyValue =>
    match getKey v.keyType keyValue with
    | .error e => .error (failState e)
    | .ok k =>
      if v.recovery then
        .ok { acc with opts := acc.opts ++ [⟨RecoveryPublicKeyOpt, k⟩] }
      else if v.update then
        .ok { acc with opts := acc.opts ++ [⟨UpdatePublicKeyOpt, k⟩] }
      else
        match env.jwkFromKey k with
        | .error e => .error (failState e)
        | .ok jwk =>
          match env.newVM v.id v.type "" jwk with
          | .error e => .error (failState e)
          | .ok vm =>
            match addPurposes vm acc.didDoc v.purposes with
            | .error e => .error (failState e)
            | .ok d =>
                .ok { acc with didDoc := d,
                               keysID := insertKV acc.keysID v.id keyValue }

/-- The whole key loop, fail-fast over the submitted entries in order. -/
def processKeys (env : Env) (acc : Acc) :
    List PublicKey → Except DIDState Acc
  | [] => .ok acc
  | v :: rest =>
    match processKey env acc v with
    | .error st => .error st
    | .ok acc' => processKeys env acc' rest

/-- The services fold: copy every request service entry verbatim into the
document draft. -/
def foldServices (d : DidDoc) (svcs : List ServiceEntry) : DidDoc :=
  { d with service := d.service ++ svcs.map (fun s =>
      ⟨s.id, s.type, s.priority, s.recipientKeys, s.routingKeys,
       s.endpoint⟩) }

/-- `createKeys(keysID, didID)` from operations.go: one secret-bundle
entry per map binding, id `didID + "#" + key`, value base58-encoded. -/
def createKeys (b58encode : List Nat → String)
    (keysID : List (String × List Nat)) (didID : String) : List Key :=
  keysID.map (fun p => ⟨didID ++ "#" ++ p.1, b58encode p.2⟩)

/-- `registerDIDHandler` on an already-decoded request body: empty-key
check, key loop, services fold, backend create, and result packaging. -/
def registerDIDHandler (env : Env) (data : RegisterDIDRequest) :
    RegisterResponse :=
  if data.didDocument.publicKey.isEmpty then
    ⟨data.jobID, failState "AddPublicKeys is empty"⟩
  else
    match processKeys env initAcc data.didDocument.publicKey with
    | .error st => ⟨data.jobID, st⟩
    | .ok acc =>
      match env.create (foldServices acc.didDoc data.didDocument.service)
          acc.opts with
      | .error e =>
          ⟨data.jobID, failState ("failed to create did doc : " ++ e)⟩
      | .ok res =>
          ⟨data.jobID,
           ⟨res.didDocument.id, "", RegistrationStateFinished,
            ⟨createKeys env.b58encode acc.keysID res.didDocument.id⟩⟩⟩

/-- The transport-level outcome of the register endpoint: a 400 plain
text response for a malformed body, or an HTTP 200 JSON body carrying the
business-tier result. -/
inductive HTTPResult where
  | badRequest (status : Nat) (body : String)
  | okJSON (resp : RegisterResponse)
  deriving Repr, DecidableEq

/-- The full register endpoint including the JSON body decode step. -/
def handleRegisterRequest (env : Env) (body : String) : HTTPResult :=
  match env.decodeBody body with
  | .error e => .badRequest 400 ("invalid request: " ++ e)
  | .ok data => .okJSON (registerDIDHandler env data)

/-- Which operation a REST handler dispatches to. -/
inductive HandlerKind where
  | register
  | resolve
  deriving Repr, DecidableEq

/-- A path + method + handler triple (`support.NewHTTPHandler`). -/
structure RESTHandler where
  path : String
  method : String
  kind : HandlerKind
  deriving Repr, DecidableEq

/-- `registerBasePath + "/register"`. -/
def registerPath : String := "/1.0" ++ "/register"

/-- `resolveDIDEndpoint`. -/
def resolveDIDEndpoint : String := "/resolveDID"

/-- `registrarHandlers()`: the single POST register handler. -/
def registrarHandlers : List RESTHandler :=
  [⟨registerPath, "POST", .register⟩]

/-- `resolverHandlers()`: the single GET resolve handler. -/
def resolverHandlers : List RESTHandler :=
  [⟨resolveDIDEndpoint, "GET", .resolve⟩]

/-- `GetRESTHandlers(mode)`: the mode router switch. -/
def GetRESTHandlers (mode : String) : Except String (List RESTHandler) :=
  if mode = "registrar" then .ok registrarHandlers
  else if mode = "resolver" then .ok resolverHandlers
  else if mode = "combined" then .ok (registrarHandlers ++ resolverHandlers)
  else .error ("invalid operation mode: " ++ mode)

/-- An ordinary key entry: neither the recovery nor the update flag is
set. -/
def ordinary (v : PublicKey) : Bool := !v.recovery && !v.update

/-- The ordinary key entries of a request, in submission order. -/
def ordinaryKeys (data : RegisterDIDRequest) : List PublicKey :=
  data.didDocument.publicKey.filter ordinary

/-- The bytes a successful base64 decode of an entry's value yields
(unused default for the failure case, which successful processing rules
out). -/
def decodedBytes (env : Env) (v : PublicKey) : List Nat :=
  match env.b64decode v.value with
  | .ok bs => bs
  | .error _ => []

/-- A concrete environment for evaluating the handler on closed inputs:
stand-in codecs (characters to code points; decimal rendering), JWK and
verification-method constructors that succeed structurally, and a backend
that assigns the identifier `did:ex:123`. -/
def testEnv : Env where
  b64decode := fun s => .ok (s.toList.map Char.toNat)
  b58encode := fun bs => bs.foldl (fun a n => a ++ Nat.repr n) ""
  jwkFromKey := fun k => .ok ⟨k⟩
  newVM := fun i t c j => .ok ⟨i, t, c, j⟩
  decodeBody := fun _ => .error "no body"
  create := fun _ _ => .ok ⟨⟨"did:ex:123"⟩⟩

/-- A request whose only key entry declares keyType P-256 with a value
that is not a valid uncompressed point encoding (it decodes to the empty
byte string), flagged as a recovery key. -/
def p256InvalidPointReq : RegisterDIDRequest :=
  ⟨"j1", ⟨[⟨"k1", "JsonWebKey2020", "P-256", "", [], true, false⟩], []⟩⟩

end DIDMethod

namespace DIDMethod

/-- C7: a well-formed registration request with an empty publicKeys
sequence yields the failure response with reason `AddPublicKeys is empty`
immediately; the result is the same for every environment (so no key
processing, service folding or backend create call can influence it). -/
theorem registerDIDHandler_empty_publicKeys (env : Env)
    (data : RegisterDIDRequest) (h : data.didDocument.publicKey = []) :
    registerDIDHandler env data =
      ⟨data.jobID, failState "AddPublicKeys is empty"⟩ := by
  simp [registerDIDHandler, h]

/-- Witness for C7 at a concrete empty-key request. -/
theorem registerDIDHandler_empty_publicKeys_witness :
    registerDIDHandler testEnv ⟨"j1", ⟨[], []⟩⟩ =
      ⟨"j1", failState "AddPublicKeys is empty"⟩ :=
  registerDIDHandler_empty_publicKeys testEnv ⟨"j1", ⟨[], []⟩⟩ rfl

/-- C9: the mode router yields exactly the register handler for
`registrar`, exactly the resolve handler for `resolver`, both with the
register handler first for `combined`, and fails with
`invalid operation mode: <mode>` (yielding no handlers) for every other
mode string. -/
theorem GetRESTHandlers_mode_routing :
    GetRESTHandlers "registrar" = .ok [⟨registerPath, "POST", .register⟩] ∧
    GetRESTHandlers "resolver" = .ok [⟨resolveDIDEndpoint, "GET", .resolve⟩] ∧
    GetRESTHandlers "combined" =
      .ok [⟨registerPath, "POST", .register⟩,
           ⟨resolveDIDEndpoint, "GET", .resolve⟩] ∧
    ∀ mode, mode ≠ "registrar" → mode ≠ "resolver" → mode ≠ "combined" →
      GetRESTHandlers mode = .error ("invalid operation mode: " ++ mode) := by
  refine ⟨rfl, rfl, rfl, ?_⟩
  intro mode h1 h2 h3
  simp [GetRESTHandlers, h1, h2, h3]

/-- Witness for C9 at the concrete unrecognized mode string `bogus`. -/
theorem GetRESTHandlers_mode_routing_witness :
    GetRESTHandlers "bogus" = .error ("invalid operation mode: " ++ "bogus") :=
  GetRESTHandlers_mode_routing.2.2.2 "bogus"
    (by decide) (by decide) (by decide)

/-- C3: a key entry whose recovery flag is set (respectively whose update
flag is set, with recovery clear) leaves every verification-relationship
bucket and the tracked `keysID` map unchanged — regardless of the entry's
declared purposes — and appends exactly the recovery-key (respectively
update-key) backend option carrying the decoded key. -/
theorem processKey_recovery_update (env : Env) (acc : Acc) (v : PublicKey)
    (bs : List Nat) (k : GoKey)
    (hdec : env.b64decode v.value = .ok bs)
    (hkey : getKey v.keyType bs = .ok k) :
    (v.recovery = true →
      processKey env acc v =
        .ok ⟨acc.didDoc, acc.opts ++ [⟨RecoveryPublicKeyOpt, k⟩],
             acc.keysID⟩) ∧
    (v.recovery = false → v.update = true →
      processKey env acc v =
        .ok ⟨acc.didDoc, acc.opts ++ [⟨UpdatePublicKeyOpt, k⟩],
             acc.keysID⟩) := by
  obtain ⟨d, o, m⟩ := acc
  constructor
  · intro hr
    simp [processKey, hdec, hkey, hr]
  · intro hr hu
    simp [processKey, hdec, hkey, hr, hu]

/-- Witness for C3 at a concrete recovery-flagged Ed25519 entry (whose
purposes even contain an unrecognized tag, showing purposes are
ignored). -/
theorem processKey_recovery_update_witness :
    processKey testEnv initAcc
        ⟨"k1", "t", "Ed25519", "v", ["NotAPurpose"], true, false⟩ =
      .ok ⟨emptyDoc, [⟨RecoveryPublicKeyOpt, .ed25519 [118]⟩], []⟩ :=
  (processKey_recovery_update testEnv initAcc
    ⟨"k1", "t", "Ed25519", "v", ["NotAPurpose"], true, false⟩
    [118] (.ed25519 [118]) rfl rfl).1 rfl

/-- C2 failing input: the empty byte string is not a valid P-256 point
encoding, yet `getKey` returns an ECDSA key with nil coordinates and no
error — the unchecked `elliptic.Unmarshal` nil return — and a whole
registration carrying that invalid point as a recovery key completes
successfully instead of failing. -/
theorem getKey_p256_invalid_point_not_rejected :
    ellipticUnmarshalP256 [] = none ∧
    getKey P256KeyType [] = .ok (.ecdsaP256 none none) ∧
    registerDIDHandler testEnv p256InvalidPointReq =
      ⟨"j1", ⟨"did:ex:123", "", RegistrationStateFinished, ⟨[]⟩⟩⟩ :=
  ⟨rfl, rfl, rfl⟩

/-- The key loop distributes over list append: process the prefix first,
then (fail-fast) the rest. -/
theorem processKeys_append (env : Env) (acc : Acc)
    (l1 l2 : List PublicKey) :
    processKeys env acc (l1 ++ l2) =
      match processKeys env acc l1 with
      | .error st => .error st
      | .ok acc' => processKeys env acc' l2 := by
  induction l1 generalizing acc with
  | nil => rfl
  | cons v rest ih =>
    show processKeys env acc (v :: (rest ++ l2)) = _
    simp only [processKeys]
    cases processKey env acc v with
    | error st => rfl
    | ok acc' => exact ih acc'

/-- The key loop does not consult the backend create collaborator. -/
theorem processKeys_create_irrel (env : Env)
    (c : DidDoc → List VDROption → Except String DocResolution)
    (acc : Acc) (l : List PublicKey) :
    processKeys { env with create := c } acc l = processKeys env acc l := by
  induction l generalizing acc with
  | nil => rfl
  | cons v rest ih =>
    simp only [processKeys]
    have hv : processKey { env with create := c } acc v =
        processKey env acc v := rfl
    rw [hv]
    cases processKey env acc v with
    | error st => rfl
    | ok acc' => exact ih acc'

/-- A list with an element in the middle is not empty (as the `isEmpty`
check of the handler sees it). -/
theorem isEmpty_append_cons (pre post : List PublicKey) (v : PublicKey) :
    (pre ++ v :: post).isEmpty = false := by
  cases pre <;> rfl

/-- C6: a key entry whose keyType is neither Ed25519 nor P-256 terminates
the whole request with `invalid key type: <type>`; the result is
independent of every later key entry, of the services, and of the backend
create collaborator (so nothing after the failing entry is processed and
no backend call occurs). -/
theorem invalid_keyType_fails_request (env : Env) (jobID : String)
    (pre : List PublicKey) (v : PublicKey) (acc : Acc) (bs : List Nat)
    (hpre : processKeys env initAcc pre = .ok acc)
    (hdec : env.b64decode v.value = .ok bs)
    (ht1 : v.keyType ≠ Ed25519KeyType) (ht2 : v.keyType ≠ P256KeyType) :
    ∀ (post : List PublicKey) (svcs : List ServiceEntry)
      (c : DidDoc → List VDROption → Except String DocResolution),
      registerDIDHandler { env with create := c }
          ⟨jobID, ⟨pre ++ v :: post, svcs⟩⟩ =
        ⟨jobID, failState ("invalid key type: " ++ v.keyType)⟩ := by
  intro post svcs c
  have hdec' : Env.b64decode { env with create := c } v.value = .ok bs := hdec
  simp only [registerDIDHandler, isEmpty_append_cons, Bool.false_eq_true,
    if_false, processKeys_create_irrel, processKeys_append, hpre,
    processKeys, processKey, hdec, getKey, ht1, ht2, if_neg ht1, if_neg ht2]

/-- The purpose loop distributes over list append. -/
theorem addPurposes_append (vm : VerificationMethod) (d : DidDoc)
    (l1 l2 : List String) :
    addPurposes vm d (l1 ++ l2) =
      match addPurposes vm d l1 with
      | .error e => .error e
      | .ok d' => addPurposes vm d' l2 := by
  induction l1 generalizing d with
  | nil => rfl
  | cons p rest ih =>
    show addPurposes vm d (p :: (rest ++ l2)) = _
    simp only [addPurposes]
    cases addPurpose vm d p with
    | error e => rfl
    | ok d' => exact ih d'

/-- Appending one bucket entry changes exactly that bucket, by one
appended reference. -/
theorem bucketOf_appendBucket (d : DidDoc) (r : Relationship)
    (x : Verification) (r' : Relationship) :
    bucketOf (appendBucket d r x) r' =
      if r' = r then bucketOf d r' ++ [x] else bucketOf d r' := by
  cases r <;> cases r' <;> simp [bucketOf, appendBucket]

/-- Appending a bucket entry leaves the services untouched. -/
theorem service_appendBucket (d : DidDoc) (r : Relationship)
    (x : Verification) : (appendBucket d r x).service = d.service := by
  cases r <;> rfl

/-- Routing a list of recognized purpose tags succeeds and appends, to
each bucket, one reference to the (single, shared) verification method
per occurrence of a tag routed to that bucket; services are untouched. -/
theorem addPurposes_recognized (vm : VerificationMethod) :
    ∀ (ps : List String) (d : DidDoc),
    (∀ q ∈ ps, (tagToRel q).isSome) →
    ∃ d', addPurposes vm d ps = .ok d' ∧
      (∀ r, bucketOf d' r = bucketOf d r ++
        List.replicate
          (ps.countP (fun q => decide (tagToRel q = some r))) ⟨vm, r⟩) ∧
      d'.service = d.service := by
  intro ps
  induction ps with
  | nil =>
    intro d _
    exact ⟨d, rfl, fun r => by simp [List.countP_nil], rfl⟩
  | cons q rest ih =>
    intro d h
    obtain ⟨r₀, hq⟩ := Option.isSome_iff_exists.mp
      (h q (List.mem_cons_self q rest))
    obtain ⟨d', hok, hbuckets, hsvc⟩ :=
      ih (appendBucket d r₀ ⟨vm, r₀⟩)
        (fun p hp => h p (List.mem_cons_of_mem q hp))
    refine ⟨d', ?_, ?_, ?_⟩
    · simp only [addPurposes, addPurpose, hq, hok]
    · intro r
      rw [hbuckets r, bucketOf_appendBucket]
      have hcnt : (q :: rest).countP
          (fun p => decide (tagToRel p = some r)) =
          rest.countP (fun p => decide (tagToRel p = some r)) +
            if tagToRel q = some r then 1 else 0 := by
        rw [List.countP_cons]
        by_cases hc : tagToRel q = some r <;> simp [hc]
      rw [hcnt]
      by_cases hr : r = r₀
      · subst hr
        rw [if_pos rfl, if_pos hq, List.append_assoc, List.replicate_succ]
        rfl
      · have hne : ¬tagToRel q = some r := by
          rw [hq]
          intro hcontra
          exact hr (Option.some.inj hcontra).symm
        rw [if_neg (fun hco => hr hco), if_neg hne, Nat.add_zero]
    · rw [hsvc, service_appendBucket]

/-- Routing a purpose list whose first unrecognized tag is `p` fails the
whole purpose loop with `public key purpose <p> not supported`. -/
theorem addPurposes_unrecognized (vm : VerificationMethod) (d : DidDoc)
    (ps₁ ps₂ : List String) (p : String)
    (h₁ : ∀ q ∈ ps₁, (tagToRel q).isSome) (hp : tagToRel p = none) :
    addPurposes vm d (ps₁ ++ p :: ps₂) =
      .error ("public key purpose " ++ p ++ " not supported") := by
  obtain ⟨d', hok, _, _⟩ := addPurposes_recognized vm ps₁ d h₁
  rw [addPurposes_append, hok]
  simp only [addPurposes, addPurpose, hp]

/-- C5: an ordinary key entry carrying a purpose tag outside the five
recognized tags terminates the whole request with
`public key purpose <tag> not supported`; the result is independent of
every later key entry, of the services, and of the backend create
collaborator (no later entry is processed and no document is
submitted). -/
theorem unsupported_purpose_fails_request (env : Env) (jobID : String)
    (pre : List PublicKey) (v : PublicKey) (acc : Acc) (bs : List Nat)
    (k : GoKey) (jwk : JWK) (vm : VerificationMethod)
    (ps₁ ps₂ : List String) (p : String)
    (hpre : processKeys env initAcc pre = .ok acc)
    (hrec : v.recovery = false) (hupd : v.update = false)
    (hdec : env.b64decode v.value = .ok bs)
    (hkey : getKey v.keyType bs = .ok k)
    (hjwk : env.jwkFromKey k = .ok jwk)
    (hvm : env.newVM v.id v.type "" jwk = .ok vm)
    (hps : v.purposes = ps₁ ++ p :: ps₂)
    (h₁ : ∀ q ∈ ps₁, (tagToRel q).isSome) (hp : tagToRel p = none) :
    ∀ (post : List PublicKey) (svcs : List ServiceEntry)
      (c : DidDoc → List VDROption → Except String DocResolution),
      registerDIDHandler { env with create := c }
          ⟨jobID, ⟨pre ++ v :: post, svcs⟩⟩ =
        ⟨jobID,
         failState ("public key purpose " ++ p ++ " not supported")⟩ := by
  intro post svcs c
  simp only [registerDIDHandler, isEmpty_append_cons, Bool.false_eq_true,
    if_false, processKeys_create_irrel, processKeys_append, hpre,
    processKeys, processKey, hdec, hkey, hrec, hupd, hjwk, hvm, hps,
    addPurposes_unrecognized vm acc.didDoc ps₁ ps₂ p h₁ hp]

/-- Witness for C6: a concrete request whose first key declares keyType
`RSA`, followed by a perfectly valid Ed25519 key that is never
reached. -/
theorem invalid_keyType_fails_request_witness :
    registerDIDHandler { testEnv with create := testEnv.create }
        ⟨"j1", ⟨[] ++ (⟨"k1", "t", "RSA", "v", [], false, false⟩ : PublicKey) ::
          [⟨"k2", "t", "Ed25519", "w", [], false, false⟩], []⟩⟩ =
      ⟨"j1", failState ("invalid key type: " ++ "RSA")⟩ :=
  invalid_keyType_fails_request testEnv "j1" []
    ⟨"k1", "t", "RSA", "v", [], false, false⟩ initAcc [118]
    rfl rfl (by decide) (by decide)
    [⟨"k2", "t", "Ed25519", "w", [], false, false⟩] [] testEnv.create

/-- Witness for C5: a concrete ordinary key whose purposes are one
recognized tag followed by the unrecognized tag `Foo`. -/
theorem unsupported_purpose_fails_request_witness :
    registerDIDHandler { testEnv with create := testEnv.create }
        ⟨"j1", ⟨[] ++ (⟨"k1", "t", "Ed25519", "v",
          ["Authentication", "Foo"], false, false⟩ : PublicKey) :: [], []⟩⟩ =
      ⟨"j1", failState ("public key purpose " ++ "Foo" ++ " not supported")⟩ :=
  unsupported_purpose_fails_request testEnv "j1" []
    ⟨"k1", "t", "Ed25519", "v", ["Authentication", "Foo"], false, false⟩
    initAcc [118] (.ed25519 [118]) ⟨.ed25519 [118]⟩
    ⟨"k1", "t", "", ⟨.ed25519 [118]⟩⟩ ["Authentication"] [] "Foo"
    rfl rfl rfl rfl rfl rfl rfl rfl (by decide) rfl [] [] testEnv.create

/-- A one-ordinary-key request used by concrete evaluations. -/
def oneKeyReq : RegisterDIDRequest :=
  ⟨"j1", ⟨[⟨"k1", "t", "Ed25519", "v", [], false, false⟩], []⟩⟩

/-- C8 counterexample input: the backend rejects with error text `x`; the
handler's reason is `failed to create did doc : x` — with a space before
the colon — not the claimed exact text `failed to create did doc: x`. -/
theorem backend_error_reason_space_before_colon :
    registerDIDHandler { testEnv with create := fun _ _ => .error "x" }
        oneKeyReq =
      ⟨"j1", failState ("failed to create did doc : x")⟩ ∧
    ("failed to create did doc : x" ≠ "failed to create did doc: x") :=
  ⟨rfl, by decide⟩

/-- C8 as implemented: every backend create error `e` yields, inside the
HTTP-200 JSON body (never a transport error status), the business-tier
failure with reason `failed to create did doc : <e>` (note the space
before the colon in the source's format string). -/
theorem backend_error_failure_response (env : Env) (body : String)
    (data : RegisterDIDRequest) (acc : Acc) (e : String)
    (hbody : env.decodeBody body = .ok data)
    (hne : data.didDocument.publicKey.isEmpty = false)
    (hkeys : processKeys env initAcc data.didDocument.publicKey = .ok acc)
    (hcreate : env.create (foldServices acc.didDoc data.didDocument.service)
        acc.opts = .error e) :
    handleRegisterRequest env body =
      .okJSON ⟨data.jobID,
        failState ("failed to create did doc : " ++ e)⟩ := by
  simp only [handleRegisterRequest, hbody, registerDIDHandler, hne,
    Bool.false_eq_true, if_false, hkeys, hcreate]

/-- Witness for C8 at a concrete body, request and backend error. -/
theorem backend_error_failure_response_witness :
    handleRegisterRequest
        { testEnv with decodeBody := fun _ => .ok oneKeyReq,
                       create := fun _ _ => .error "x" } "body" =
      .okJSON ⟨"j1", failState ("failed to create did doc : " ++ "x")⟩ :=
  backend_error_failure_response
    { testEnv with decodeBody := fun _ => .ok oneKeyReq,
                   create := fun _ _ => .error "x" }
    "body" oneKeyReq ⟨emptyDoc, [], [("k1", [118])]⟩ "x" rfl rfl rfl rfl

/-- The purpose tag that routes to a given relationship bucket. -/
def tagOfRel : Relationship → String
  | .authentication => KeyPurposeAuthentication
  | .assertionMethod => KeyPurposeAssertionMethod
  | .keyAgreement => KeyPurposeKeyAgreement
  | .capabilityDelegation => KeyPurposeCapabilityDelegation
  | .capabilityInvocation => KeyPurposeCapabilityInvocation

/-- A tag routes to bucket `r` exactly when it is `r`'s tag. -/
theorem tagToRel_eq_some (p : String) (r : Relationship) :
    tagToRel p = some r ↔ p = tagOfRel r := by
  constructor
  · intro hp
    unfold tagToRel at hp
    split_ifs at hp with h1 h2 h3 h4 h5
    · cases Option.some.inj hp; exact h1
    · cases Option.some.inj hp; exact h2
    · cases Option.some.inj hp; exact h3
    · cases Option.some.inj hp; exact h4
    · cases Option.some.inj hp; exact h5
  · intro h
    subst h
    cases r <;> decide

/-- The recognized-tag-to-relationship routing is injective: two tags
that route to the same bucket are the same tag. -/
theorem tagToRel_inj (p q : String) (r : Relationship)
    (hp : tagToRel p = some r) (hq : tagToRel q = some r) : p = q := by
  rw [tagToRel_eq_some] at hp hq
  rw [hp, hq]

/-- Filtering a duplicate-free list by a predicate that characterizes one
of its members yields exactly that member. -/
theorem filter_singleton_of_nodup {ps : List String} {pred : String → Bool}
    {A : String} (hnd : ps.Nodup) (hmem : A ∈ ps)
    (hiff : ∀ a, pred a = true ↔ a = A) : ps.filter pred = [A] := by
  induction ps with
  | nil => cases hmem
  | cons b rest ih =>
    rw [List.nodup_cons] at hnd
    by_cases hbA : b = A
    · subst hbA
      rw [List.filter_cons_of_pos ((hiff b).mpr rfl)]
      have hrest : rest.filter pred = [] :=
        List.filter_eq_nil_iff.mpr
          (fun a ha hpa => hnd.1 (((hiff a).mp hpa) ▸ ha))
      rw [hrest]
    · have hpb : ¬pred b = true := fun hpd => hbA ((hiff b).mp hpd)
      rw [List.filter_cons_of_neg hpb]
      have hmem' : A ∈ rest := by
        cases List.mem_cons.mp hmem with
        | inl h => exact absurd h.symm hbA
        | inr h => exact h
      exact ih hnd.2 hmem'

/-- In a duplicate-free purpose list containing the recognized tag `A`,
exactly one element routes to `A`'s bucket. -/
theorem countP_tag_eq_one {ps : List String} {A : String} {r : Relationship}
    (hnd : ps.Nodup) (hA : tagToRel A = some r) (hmem : A ∈ ps) :
    ps.countP (fun q => decide (tagToRel q = some r)) = 1 := by
  rw [List.countP_eq_length_filter, filter_singleton_of_nodup hnd hmem ?_]
  · rfl
  · intro a
    constructor
    · intro h
      exact tagToRel_inj a A r (of_decide_eq_true h) hA
    · intro h
      subst h
      exact decide_eq_true hA

/-- C4: an ordinary key entry whose duplicate-free purpose set contains
recognized tags `A` and `B` contributes exactly one reference to the one
shared verification method into bucket `A` and exactly one into bucket
`B` (the same `vm` record is referenced from both buckets, not
duplicated), while the backend options are untouched and the key is
tracked once. -/
theorem ordinary_key_multi_purpose_single_vm (env : Env) (acc : Acc)
    (v : PublicKey) (bs : List Nat) (k : GoKey) (jwk : JWK)
    (vm : VerificationMethod) (A B : String) (ra rb : Relationship)
    (hrec : v.recovery = false) (hupd : v.update = false)
    (hdec : env.b64decode v.value = .ok bs)
    (hkey : getKey v.keyType bs = .ok k)
    (hjwk : env.jwkFromKey k = .ok jwk)
    (hvm : env.newVM v.id v.type "" jwk = .ok vm)
    (hall : ∀ q ∈ v.purposes, (tagToRel q).isSome)
    (hnd : v.purposes.Nodup)
    (hA : tagToRel A = some ra) (hB : tagToRel B = some rb)
    (hmemA : A ∈ v.purposes) (hmemB : B ∈ v.purposes) :
    ∃ d', processKey env acc v =
        .ok ⟨d', acc.opts, insertKV acc.keysID v.id bs⟩ ∧
      bucketOf d' ra = bucketOf acc.didDoc ra ++ [⟨vm, ra⟩] ∧
      bucketOf d' rb = bucketOf acc.didDoc rb ++ [⟨vm, rb⟩] := by
  obtain ⟨d0, o0, m0⟩ := acc
  obtain ⟨d', hok, hbuckets, hsvc⟩ :=
    addPurposes_recognized vm v.purposes d0 hall
  refine ⟨d', ?_, ?_, ?_⟩
  · simp only [processKey, hdec, hkey, hrec, hupd, Bool.false_eq_true,
      if_false, hjwk, hvm, hok]
  · rw [hbuckets ra, countP_tag_eq_one hnd hA hmemA, List.replicate_one]
  · rw [hbuckets rb, countP_tag_eq_one hnd hB hmemB, List.replicate_one]

/-- Witness for C4 at a concrete two-purpose Ed25519 key. -/
theorem ordinary_key_multi_purpose_single_vm_witness :
    ∃ d', processKey testEnv initAcc
        ⟨"k1", "t", "Ed25519", "v", ["Authentication", "AssertionMethod"],
         false, false⟩ =
        .ok ⟨d', initAcc.opts, insertKV initAcc.keysID "k1" [118]⟩ ∧
      bucketOf d' .authentication =
        bucketOf initAcc.didDoc .authentication ++
          [⟨⟨"k1", "t", "", ⟨.ed25519 [118]⟩⟩, .authentication⟩] ∧
      bucketOf d' .assertionMethod =
        bucketOf initAcc.didDoc .assertionMethod ++
          [⟨⟨"k1", "t", "", ⟨.ed25519 [118]⟩⟩, .assertionMethod⟩] :=
  ordinary_key_multi_purpose_single_vm testEnv initAcc
    ⟨"k1", "t", "Ed25519", "v", ["Authentication", "AssertionMethod"],
     false, false⟩
    [118] (.ed25519 [118]) ⟨.ed25519 [118]⟩ ⟨"k1", "t", "", ⟨.ed25519 [118]⟩⟩
    "Authentication" "AssertionMethod" .authentication .assertionMethod
    rfl rfl rfl rfl rfl rfl (by decide) (by decide) rfl rfl
    (by decide) (by decide)

/-- Folding `insertKV` over a list of bindings (the whole key loop's
effect on the tracked map). -/
def insertAll (m : List (String × List Nat))
    (ps : List (String × List Nat)) : List (String × List Nat) :=
  ps.foldl (fun acc p => insertKV acc p.1 p.2) m

/-- The bindings the key loop inserts: one per ordinary entry, in
submission order, keyed by declared id, valued by the decoded bytes. -/
def trackOrdinary (env : Env) (keys : List PublicKey) :
    List (String × List Nat) :=
  (keys.filter ordinary).map (fun v => (v.id, decodedBytes env v))

/-- The `insertKV` presence test agrees with membership among the map's
keys. -/
theorem any_fst_eq_mem (m : List (String × List Nat)) (k : String) :
    m.any (fun p => p.1 = k) = true ↔ k ∈ m.map Prod.fst := by
  rw [List.any_eq_true]
  constructor
  · rintro ⟨p, hp, hpk⟩
    exact List.mem_map.mpr ⟨p, hp, of_decide_eq_true hpk⟩
  · intro h
    obtain ⟨p, hp, hpk⟩ := List.mem_map.mp h
    exact ⟨p, hp, decide_eq_true hpk⟩

/-- Inserting a fresh key appends the binding. -/
theorem insertKV_fresh {m : List (String × List Nat)} {k : String}
    {v : List Nat} (h : k ∉ m.map Prod.fst) :
    insertKV m k v = m ++ [(k, v)] := by
  unfold insertKV
  rw [if_neg (fun hc => h ((any_fst_eq_mem m k).mp hc))]

/-- `insertKV` keeps the key sequence, only appending a fresh key. -/
theorem insertKV_map_fst (m : List (String × List Nat)) (k : String)
    (v : List Nat) :
    (insertKV m k v).map Prod.fst =
      if k ∈ m.map Prod.fst then m.map Prod.fst
      else m.map Prod.fst ++ [k] := by
  by_cases h : k ∈ m.map Prod.fst
  · rw [if_pos h]
    unfold insertKV
    rw [if_pos ((any_fst_eq_mem m k).mpr h), List.map_map]
    apply List.map_congr_left
    intro p _
    by_cases hpk : p.1 = k
    · simp [Function.comp, hpk]
    · simp [Function.comp, hpk]
  · rw [if_neg h, insertKV_fresh h, List.map_append]
    rfl

/-- `insertKV` preserves duplicate-freedom of the key sequence. -/
theorem insertKV_nodup {m : List (String × List Nat)} {k : String}
    {v : List Nat} (h : (m.map Prod.fst).Nodup) :
    ((insertKV m k v).map Prod.fst).Nodup := by
  rw [insertKV_map_fst]
  by_cases hk : k ∈ m.map Prod.fst
  · rwa [if_pos hk]
  · rw [if_neg hk, List.nodup_append]
    refine ⟨h, List.nodup_singleton k, ?_⟩
    intro a ha hb
    rw [List.mem_singleton] at hb
    subst hb
    exact hk ha

/-- Overwriting the (unique) binding of `k` and filtering by `k` yields
exactly the new binding. -/
theorem filter_map_update_eq {m : List (String × List Nat)} {k : String}
    {v : List Nat} (hnd : (m.map Prod.fst).Nodup)
    (hk : k ∈ m.map Prod.fst) :
    (m.map (fun p => if p.1 = k then (k, v) else p)).filter
        (fun p => p.1 = k) = [(k, v)] := by
  induction m with
  | nil => cases hk
  | cons a m' ih =>
    rw [List.map_cons] at hnd
    rw [List.nodup_cons] at hnd
    rw [List.map_cons]
    by_cases hak : a.1 = k
    · rw [if_pos hak, List.filter_cons_of_pos (by simp)]
      have hrest : (m'.map (fun p => if p.1 = k then (k, v) else p)).filter
          (fun p => p.1 = k) = [] := by
        rw [List.filter_eq_nil_iff]
        intro x hx
        obtain ⟨p, hp, rfl⟩ := List.mem_map.mp hx
        have hpk : p.1 ≠ k := by
          intro hc
          exact hnd.1 (hak ▸ hc ▸ List.mem_map.mpr ⟨p, hp, rfl⟩)
        rw [if_neg hpk]
        simp [hpk]
      rw [hrest]
    · rw [if_neg hak, List.filter_cons_of_neg (by simp [hak])]
      have hk' : k ∈ m'.map Prod.fst := by
        cases List.mem_cons.mp hk with
        | inl h => exact absurd h.symm hak
        | inr h => exact h
      exact ih hnd.2 hk'

/-- Overwriting the binding of `k` does not change the entries of any
other key `i`. -/
theorem filter_map_update_ne {k i : String} {v : List Nat}
    (hik : i ≠ k) :
    ∀ m : List (String × List Nat),
    (m.map (fun p => if p.1 = k then (k, v) else p)).filter
        (fun p => p.1 = i) = m.filter (fun p => p.1 = i) := by
  intro m
  induction m with
  | nil => rfl
  | cons a m' ih =>
    rw [List.map_cons]
    by_cases hak : a.1 = k
    · rw [if_pos hak,
        List.filter_cons_of_neg
          (by simp only [decide_eq_true_eq]; exact fun h => hik h.symm),
        List.filter_cons_of_neg
          (by simp only [decide_eq_true_eq, hak]
              exact fun h => hik h.symm),
        ih]
    · rw [if_neg hak, List.filter_cons, List.filter_cons, ih]

/-- The entries of key `i` after one insert: the inserted binding alone
when `i` is the inserted key, the previous entries otherwise. -/
theorem filter_insertKV (m : List (String × List Nat)) (k i : String)
    (v : List Nat) (hnd : (m.map Prod.fst).Nodup) :
    (insertKV m k v).filter (fun p => p.1 = i) =
      if i = k then [(k, v)] else m.filter (fun p => p.1 = i) := by
  by_cases hik : i = k
  · subst hik
    rw [if_pos rfl]
    by_cases hk : i ∈ m.map Prod.fst
    · unfold insertKV
      rw [if_pos ((any_fst_eq_mem m i).mpr hk)]
      exact filter_map_update_eq hnd hk
    · rw [insertKV_fresh hk, List.filter_append]
      have hm : m.filter (fun p => p.1 = i) = [] := by
        rw [List.filter_eq_nil_iff]
        intro p hp hpk
        exact hk (List.mem_map.mpr ⟨p, hp, of_decide_eq_true hpk⟩)
      rw [hm]
      simp
  · rw [if_neg hik]
    unfold insertKV
    by_cases hk : m.any (fun p => p.1 = k) = true
    · rw [if_pos hk]
      exact filter_map_update_ne hik m
    · rw [if_neg hk, List.filter_append,
        List.filter_cons_of_neg
          (by simp only [decide_eq_true_eq]; exact fun h => hik h.symm),
        List.filter_nil, List.append_nil]

/-- The entries of key `i` after a whole sequence of inserts: the last
inserted binding for `i` (overwrites win), or the previous entries when
`i` was never inserted. -/
theorem filter_insertAll :
    ∀ (ps m : List (String × List Nat)) (i : String),
    (m.map Prod.fst).Nodup →
    (insertAll m ps).filter (fun p => p.1 = i) =
      match (ps.filter (fun p => p.1 = i)).getLast? with
      | some q => [(i, q.2)]
      | none => m.filter (fun p => p.1 = i) := by
  intro ps
  induction ps with
  | nil => intro m i _; rfl
  | cons kv rest ih =>
    intro m i hnd
    obtain ⟨k, v⟩ := kv
    have hstep : insertAll m ((k, v) :: rest) =
        insertAll (insertKV m k v) rest := rfl
    rw [hstep, ih (insertKV m k v) i (insertKV_nodup hnd), List.filter_cons]
    cases hrest : (rest.filter (fun p => p.1 = i)).getLast? with
    | some q =>
      have hsame :
          ((if ((k, v).1 = i : Bool) then
              (k, v) :: rest.filter (fun p => p.1 = i)
            else rest.filter (fun p => p.1 = i))).getLast? = some q := by
        split
        · show ([(k, v)] ++ rest.filter (fun p => p.1 = i)).getLast? = some q
          rw [List.getLast?_append, hrest]
          rfl
        · exact hrest
      rw [hsame]
    | none =>
      have hnil : rest.filter (fun p => p.1 = i) = [] :=
        List.getLast?_eq_none_iff.mp hrest
      show (insertKV m k v).filter (fun p => p.1 = i) = _
      rw [filter_insertKV m k i v hnd, hnil]
      by_cases hki : k = i
      · subst hki
        simp
      · rw [if_neg (fun h => hki h.symm),
          if_neg (show ¬(decide ((k, v).1 = i) = true) by
            simp only [decide_eq_true_eq]; exact hki)]
        rfl

/-- Inserting bindings with duplicate-free keys, all fresh for the map,
appends them in order. -/
theorem insertAll_fresh :
    ∀ (ps m : List (String × List Nat)),
    (ps.map Prod.fst).Nodup →
    (∀ a ∈ ps.map Prod.fst, a ∉ m.map Prod.fst) →
    insertAll m ps = m ++ ps := by
  intro ps
  induction ps with
  | nil => intro m _ _; rw [List.append_nil]; rfl
  | cons p rest ih =>
    intro m hnd hfr
    rw [List.map_cons] at hnd hfr
    rw [List.nodup_cons] at hnd
    have hp : p.1 ∉ m.map Prod.fst := hfr p.1 (List.mem_cons_self _ _)
    have hstep : insertAll m (p :: rest) =
        insertAll (insertKV m p.1 p.2) rest := rfl
    rw [hstep, insertKV_fresh hp,
      ih (m ++ [p]) hnd.2 ?_, List.append_assoc]
    · rfl
    · intro a ha
      rw [List.map_append, List.mem_append]
      rintro (hm | hs)
      · exact hfr a (List.mem_cons_of_mem _ ha) hm
      · have : a = p.1 := by
          simpa using hs
        exact hnd.1 (this ▸ ha)

/-- What one successful loop iteration does to the tracked map: an
ordinary entry inserts its decoded bytes under its declared id; a
recovery/update entry leaves the map untouched. -/
theorem processKey_ok_keysID (env : Env) (acc : Acc) (v : PublicKey)
    (acc' : Acc) (h : processKey env acc v = .ok acc') :
    (ordinary v = true ∧
      acc'.keysID = insertKV acc.keysID v.id (decodedBytes env v)) ∨
    (ordinary v = false ∧ acc'.keysID = acc.keysID) := by
  unfold processKey at h
  cases hdec : env.b64decode v.value with
  | error e => rw [hdec] at h; cases h
  | ok bs =>
    simp only [hdec] at h
    cases hkey : getKey v.keyType bs with
    | error e => simp only [hkey] at h; cases h
    | ok k =>
      simp only [hkey] at h
      by_cases hr : v.recovery = true
      · rw [if_pos hr] at h
        refine .inr ⟨by simp [ordinary, hr], ?_⟩
        rw [← Except.ok.inj h]
      · rw [if_neg hr] at h
        by_cases hu : v.update = true
        · rw [if_pos hu] at h
          refine .inr ⟨by simp [ordinary, hu], ?_⟩
          rw [← Except.ok.inj h]
        · rw [if_neg hu] at h
          cases hjwk : env.jwkFromKey k with
          | error e => simp only [hjwk] at h; cases h
          | ok jwk =>
            simp only [hjwk] at h
            cases hvm : env.newVM v.id v.type "" jwk with
            | error e => simp only [hvm] at h; cases h
            | ok vm =>
              simp only [hvm] at h
              cases hps : addPurposes vm acc.didDoc v.purposes with
              | error e => simp only [hps] at h; cases h
              | ok d =>
                simp only [hps] at h
                refine .inl ⟨?_, ?_⟩
                · simp only [ordinary, Bool.and_eq_true, Bool.not_eq_true']
                  exact ⟨Bool.not_eq_true _ ▸ hr, Bool.not_eq_true _ ▸ hu⟩
                · rw [← Except.ok.inj h]
                  simp [decodedBytes, hdec]

/-- The whole key loop's effect on the tracked map: fold the ordinary
entries' bindings over the starting map. -/
theorem processKeys_keysID (env : Env) :
    ∀ (keys : List PublicKey) (acc acc' : Acc),
    processKeys env acc keys = .ok acc' →
    acc'.keysID = insertAll acc.keysID (trackOrdinary env keys) := by
  intro keys
  induction keys with
  | nil =>
    intro acc acc' h
    cases Except.ok.inj h
    rfl
  | cons v rest ih =>
    intro acc acc' h
    cases hk : processKey env acc v with
    | error st => simp only [processKeys, hk] at h; cases h
    | ok acc₁ =>
      simp only [processKeys, hk] at h
      cases processKey_ok_keysID env acc v acc₁ hk with
      | inl hcase =>
        have htrack : trackOrdinary env (v :: rest) =
            (v.id, decodedBytes env v) :: trackOrdinary env rest := by
          unfold trackOrdinary
          rw [List.filter_cons_of_pos hcase.1, List.map_cons]
        rw [ih acc₁ acc' h, hcase.2, htrack]
        rfl
      | inr hcase =>
        have htrack : trackOrdinary env (v :: rest) =
            trackOrdinary env rest := by
          unfold trackOrdinary
          rw [List.filter_cons_of_neg (by rw [hcase.1]; exact fun hc => by cases hc)]
        rw [ih acc₁ acc' h, hcase.2, htrack]

/-- String concatenation cancels on the left. -/
theorem string_append_right_inj (a : String) {b c : String}
    (h : a ++ b = a ++ c) : b = c := by
  rw [String.ext_iff, String.data_append, String.data_append] at h
  exact String.ext_iff.mpr (List.append_cancel_left h)

/-- The tracked bindings' key sequence is the ordinary entries' declared
ids. -/
theorem trackOrdinary_map_fst (env : Env) (keys : List PublicKey) :
    (trackOrdinary env keys).map Prod.fst =
      (keys.filter ordinary).map PublicKey.id := by
  unfold trackOrdinary
  rw [List.map_map]
  rfl

/-- C1 (amended to pairwise-distinct ordinary ids): a successful
registration responds Finished with the backend-assigned identifier, and
its secret bundle holds exactly one entry per ordinary key submitted, in
order, with id `<identifier>#<declared id>` and the base58 re-encoding of
the key's base64-decoded bytes. -/
theorem register_success_secret_bundle (env : Env)
    (data : RegisterDIDRequest) (acc : Acc) (res : DocResolution)
    (hnd : ((ordinaryKeys data).map PublicKey.id).Nodup)
    (hne : data.didDocument.publicKey.isEmpty = false)
    (hkeys : processKeys env initAcc data.didDocument.publicKey = .ok acc)
    (hcreate : env.create (foldServices acc.didDoc data.didDocument.service)
        acc.opts = .ok res) :
    registerDIDHandler env data =
      ⟨data.jobID,
       ⟨res.didDocument.id, "", RegistrationStateFinished,
        ⟨(ordinaryKeys data).map (fun v =>
          ⟨res.didDocument.id ++ "#" ++ v.id,
           env.b58encode (decodedBytes env v)⟩)⟩⟩⟩ := by
  have hkid : acc.keysID = trackOrdinary env data.didDocument.publicKey := by
    rw [processKeys_keysID env _ initAcc acc hkeys]
    have hfr := insertAll_fresh
      (trackOrdinary env data.didDocument.publicKey) [] ?_ ?_
    · exact hfr
    · rw [trackOrdinary_map_fst]
      exact hnd
    · intro a _ hb
      exact absurd hb (List.not_mem_nil a)
  simp only [registerDIDHandler, hne, Bool.false_eq_true, if_false,
    hkeys, hcreate]
  rw [hkid]
  simp only [createKeys, trackOrdinary, List.map_map]
  rfl

/-- A request with two ordinary keys declaring the same id `k1`. -/
def dupIdReq : RegisterDIDRequest :=
  ⟨"j1", ⟨[⟨"k1", "t", "Ed25519", "a", [], false, false⟩,
           ⟨"k1", "t", "Ed25519", "b", [], false, false⟩], []⟩⟩

/-- Witness for C1 at a concrete request with two distinct-id ordinary
keys and one recovery key. -/
def twoKeyReq : RegisterDIDRequest :=
  ⟨"j1", ⟨[⟨"k1", "t", "Ed25519", "a", [], false, false⟩,
           ⟨"k2", "t", "Ed25519", "b", [], false, false⟩,
           ⟨"kr", "t", "Ed25519", "c", [], true, false⟩], []⟩⟩

/-- C1 counterexample input: two ordinary keys share the id `k1`; the
request succeeds but the secret bundle holds one entry, not one per
ordinary key submitted. -/
theorem dup_id_secret_bundle_collapses :
    (ordinaryKeys dupIdReq).length = 2 ∧
    (registerDIDHandler testEnv dupIdReq).didState.state =
      RegistrationStateFinished ∧
    ((registerDIDHandler testEnv dupIdReq).didState.secret.keys).length =
      1 :=
  ⟨rfl, rfl, rfl⟩

/-- Witness for C1's amended theorem. -/
theorem register_success_secret_bundle_witness :
    registerDIDHandler testEnv twoKeyReq =
      ⟨"j1", ⟨"did:ex:123", "", RegistrationStateFinished,
        ⟨[⟨"did:ex:123" ++ "#" ++ "k1", testEnv.b58encode [97]⟩,
          ⟨"did:ex:123" ++ "#" ++ "k2", testEnv.b58encode [98]⟩]⟩⟩⟩ :=
  register_success_secret_bundle testEnv twoKeyReq
    ⟨emptyDoc, [⟨RecoveryPublicKeyOpt, .ed25519 [99]⟩],
     [("k1", [97]), ("k2", [98])]⟩
    ⟨⟨"did:ex:123"⟩⟩ (by decide) rfl rfl rfl

/-- C10: when several ordinary entries declare the same id and the
request succeeds, the secret bundle carries a single entry for that id,
valued by the bytes of the last such entry in submission order (the map
insert overwrites earlier bindings). -/
theorem duplicate_ordinary_id_last_wins (env : Env)
    (data : RegisterDIDRequest) (acc : Acc) (res : DocResolution)
    (i : String) (w : PublicKey)
    (hne : data.didDocument.publicKey.isEmpty = false)
    (hkeys : processKeys env initAcc data.didDocument.publicKey = .ok acc)
    (hcreate : env.create (foldServices acc.didDoc data.didDocument.service)
        acc.opts = .ok res)
    (hdup : 2 ≤ ((ordinaryKeys data).filter (fun v => v.id = i)).length)
    (hlast : ((ordinaryKeys data).filter (fun v => v.id = i)).getLast? =
      some w) :
    ((registerDIDHandler env data).didState.secret.keys).filter
        (fun e => e.id = res.didDocument.id ++ "#" ++ i) =
      [⟨res.didDocument.id ++ "#" ++ i,
        env.b58encode (decodedBytes env w)⟩] := by
  have hkid : acc.keysID =
      insertAll [] (trackOrdinary env data.didDocument.publicKey) :=
    processKeys_keysID env _ initAcc acc hkeys
  have hpairs :
      (insertAll [] (trackOrdinary env data.didDocument.publicKey)).filter
        (fun p => p.1 = i) = [(i, decodedBytes env w)] := by
    rw [filter_insertAll _ [] i List.nodup_nil]
    have htf :
        (trackOrdinary env data.didDocument.publicKey).filter
          (fun p => p.1 = i) =
        ((ordinaryKeys data).filter (fun v => v.id = i)).map
          (fun v => (v.id, decodedBytes env v)) := by
      unfold trackOrdinary
      rw [List.filter_map]
      rfl
    rw [htf, List.getLast?_map, hlast]
    rfl
  have hmain : ∀ (L : List (String × List Nat)),
      L.filter (fun p => p.1 = i) = [(i, decodedBytes env w)] →
      (L.map (fun p =>
        (⟨res.didDocument.id ++ "#" ++ p.1, env.b58encode p.2⟩ : Key))).filter
          (fun e => e.id = res.didDocument.id ++ "#" ++ i) =
      [⟨res.didDocument.id ++ "#" ++ i,
        env.b58encode (decodedBytes env w)⟩] := by
    intro L hL
    rw [List.filter_map]
    have hcong : L.filter
        ((fun e : Key =>
          decide (e.id = res.didDocument.id ++ "#" ++ i)) ∘
         (fun p =>
          (⟨res.didDocument.id ++ "#" ++ p.1, env.b58encode p.2⟩ : Key))) =
        L.filter (fun p => p.1 = i) := by
      apply List.filter_congr
      intro p _
      show decide
          (res.didDocument.id ++ "#" ++ p.1 = res.didDocument.id ++ "#" ++ i) =
        decide (p.1 = i)
      rw [decide_eq_decide]
      exact ⟨fun h => string_append_right_inj _ h, fun h => by rw [h]⟩
    rw [hcong, hL]
    rfl
  simp only [registerDIDHandler, hne, Bool.false_eq_true, if_false,
    hkeys, hcreate]
  rw [hkid]
  simp only [createKeys]
  exact hmain _ hpairs

/-- Witness for C10 at `dupIdReq`: one bundle entry for `k1`, carrying
the second (last) submitted value. -/
theorem duplicate_ordinary_id_last_wins_witness :
    ((registerDIDHandler testEnv dupIdReq).didState.secret.keys).filter
        (fun e => e.id = "did:ex:123" ++ "#" ++ "k1") =
      [⟨"did:ex:123" ++ "#" ++ "k1",
        testEnv.b58encode (decodedBytes testEnv
          ⟨"k1", "t", "Ed25519", "b", [], false, false⟩)⟩] :=
  duplicate_ordinary_id_last_wins testEnv dupIdReq
    ⟨emptyDoc, [], [("k1", [98])]⟩ ⟨⟨"did:ex:123"⟩⟩ "k1"
    ⟨"k1", "t", "Ed25519", "b", [], false, false⟩
    rfl rfl rfl (by decide) rfl

/-- C2 behaviour as implemented: for keyType P-256 the raw bytes are fed
to uncompressed-point unmarshalling, and `getKey` succeeds on every
input — a valid point yields its coordinates, an invalid encoding yields
an ECDSA key whose coordinate pointers are both nil. -/
theorem getKey_p256_never_fails (bs : List Nat) :
    getKey P256KeyType bs =
      .ok (match ellipticUnmarshalP256 bs with
        | some (x, y) => .ecdsaP256 (some x) (some y)
        | none => .ecdsaP256 none none) := by
  unfold getKey
  rw [if_neg (by decide), if_pos rfl]
  cases h : ellipticUnmarshalP256 bs with
  | none => rfl
  | some p => obtain ⟨x, y⟩ := p; rfl

end DIDMethod
